import Mathlib

/-!
Verification development for the JAudio WAVE library (`src/wave_file.rs`).

Shallow embedding conventions:
* bytes are `Nat` (each source byte is `u8`, value < 256);
* `u32` arithmetic is `Nat` with an explicit `% 2 ^ 32` wherever the source
  can wrap (Rust release semantics); `usize -> u32` casts are `% 2 ^ 32`;
* Rust panics are surfaced as `Except` error values.
-/

namespace JAudio

/-- Failure kinds of the library: the alignment panic in `add_bytes`, the
division/remainder-by-zero panics, and the out-of-bounds slice panic in
`file_to_data`. -/
inductive JError where
  | alignment
  | divByZero
  | outOfBounds
deriving DecidableEq, Repr

/-- Model of the `AudioFormat` enum of `wave_file.rs`; a single variant `PCM`. -/
inductive AudioFormat where
  | PCM
deriving DecidableEq, Repr

/-- Model of `AudioFormat::get_val`: the wire-level codec id (`PCM` is `1`). -/
def AudioFormat.get_val : AudioFormat → Nat
  | .PCM => 1

/-- Model of the `WaveFile` struct: all `u32` fields are `Nat` (values < 2^32 in
the source), the `Vec<u8>` of sample bytes is a `List Nat`. -/
structure WaveFile where
  audio_format : Nat
  num_channels : Nat
  sample_rate : Nat
  bits_per_sample : Nat
  byte_rate : Nat
  block_align : Nat
  audio_byte_data : List Nat
deriving DecidableEq, Repr

/-- The `u32` modulus. -/
def U32 : Nat := 2 ^ 32

/-- Model of `WaveFile::new`: derives `byte_rate` and `block_align` from the
parameters; each `u32` multiplication is left-associated and wraps mod 2^32. -/
def WaveFile.new (af : AudioFormat) (num_channels sample_rate bits_per_sample : Nat) :
    WaveFile :=
  { audio_format := af.get_val
    num_channels := num_channels
    sample_rate := sample_rate
    bits_per_sample := bits_per_sample
    byte_rate := sample_rate * num_channels % U32 * (bits_per_sample / 8) % U32
    block_align := num_channels * (bits_per_sample / 8) % U32
    audio_byte_data := [] }

/-- Model of `WaveFile::add_bytes`. The source computes
`bytes.len() as u32 % self.block_align` (the cast truncates the length mod 2^32)
and panics on a nonzero remainder; `% 0` itself panics when `block_align = 0`.
On success the bytes are appended and the caller's vector is drained (returned
component is the now-empty caller buffer, as `Vec::append` leaves it). -/
def WaveFile.add_bytes (w : WaveFile) (bytes : List Nat) :
    Except JError (WaveFile × List Nat) :=
  if w.block_align = 0 then .error .divByZero
  else if bytes.length % U32 % w.block_align ≠ 0 then .error .alignment
  else .ok ({ w with audio_byte_data := w.audio_byte_data ++ bytes }, [])

/-- The 4-byte little-endian encoding of a `u32` (`u32::to_le_bytes`). -/
def le32 (v : Nat) : List Nat :=
  [v % 256, v / 256 % 256, v / 65536 % 256, v / 16777216 % 256]

/-- The first two bytes of the 4-byte little-endian encoding: the source's
filter idiom that keeps only indices `i < 2` of `to_le_bytes` for the 2-byte
header fields. -/
def lo16 (v : Nat) : List Nat := (le32 v).take 2

/-- A 2-byte little-endian encoding, used to state what the 2-byte fields hold. -/
def le16 (v : Nat) : List Nat := [v % 256, v / 256 % 256]

/-- Decoder of a 4-byte little-endian field back to its numeric value. -/
def leVal4 (l : List Nat) : Nat :=
  l.getD 0 0 + 256 * l.getD 1 0 + 65536 * l.getD 2 0 + 16777216 * l.getD 3 0

/-- Subchunk2Size exactly as computed in `WaveFile::to_bytes`: the data length
is cast `as u32`, `num_samples = num_bytes_in_data / (2 * num_channels)` with
the divisor a wrapping `u32` product, and the final products wrap mod 2^32. -/
def WaveFile.subchunk2_size (w : WaveFile) : Nat :=
  w.audio_byte_data.length % U32 / (2 * w.num_channels % U32) *
    w.num_channels % U32 * (w.bits_per_sample / 8) % U32

/-- ChunkSize as computed in `WaveFile::to_bytes` (`u32` additions wrap). -/
def WaveFile.chunk_size (w : WaveFile) : Nat :=
  (4 + (8 + 16) + (8 + w.subchunk2_size)) % U32

/-- The byte stream assembled by `WaveFile::to_bytes`: the thirteen `extend`
calls in source order. `"RIFF" = [82,73,70,70]`, `"WAVE" = [87,65,86,69]`,
`"fmt " = [102,109,116,32]`, `"data" = [100,97,116,97]`. -/
def WaveFile.wave_bytes (w : WaveFile) : List Nat :=
  [82, 73, 70, 70]
  ++ le32 w.chunk_size
  ++ [87, 65, 86, 69]
  ++ [102, 109, 116, 32]
  ++ le32 16
  ++ lo16 w.audio_format
  ++ lo16 w.num_channels
  ++ le32 w.sample_rate
  ++ le32 w.byte_rate
  ++ lo16 w.block_align
  ++ lo16 w.bits_per_sample
  ++ [100, 97, 116, 97]
  ++ le32 w.subchunk2_size
  ++ w.audio_byte_data

/-- Model of `WaveFile::to_bytes`. The division inside the Subchunk2Size
computation panics in Rust when the wrapped divisor `2 * num_channels` is zero
(that is, `num_channels = 0` or `num_channels = 2^31`); otherwise the layout
above is produced. -/
def WaveFile.to_bytes (w : WaveFile) : Except JError (List Nat) :=
  if 2 * w.num_channels % U32 = 0 then .error .divByZero
  else .ok w.wave_bytes

/-- Model of the in-memory core of `WaveFile::file_to_data` (the `fs::read` is
an external collaborator): `file_content[44..].to_vec()`, which panics
(out of bounds) when the content is shorter than 44 bytes. -/
def file_to_data (file_content : List Nat) : Except JError (List Nat) :=
  if file_content.length < 44 then .error .outOfBounds
  else .ok (file_content.drop 44)

/-- Decidable equality on `Except`, so that concrete runs of the fallible
operations can be checked by `decide`. -/
instance (ε α : Type) [DecidableEq ε] [DecidableEq α] : DecidableEq (Except ε α) :=
  fun a b =>
    match a, b with
    | .ok x, .ok y =>
      if h : x = y then .isTrue (by rw [h]) else .isFalse (by simp [h])
    | .error x, .error y =>
      if h : x = y then .isTrue (by rw [h]) else .isFalse (by simp [h])
    | .ok _, .error _ => .isFalse (by simp)
    | .error _, .ok _ => .isFalse (by simp)

/-- Containers reachable through the public API: freshly constructed by
`WaveFile::new`, or the result of a successful `add_bytes` on a reachable one. -/
inductive Built : WaveFile → Prop where
  | base (af : AudioFormat) (nc sr bps : Nat) : Built (WaveFile.new af nc sr bps)
  | step (w : WaveFile) (b : List Nat) (res : WaveFile) (rest : List Nat) :
      Built w → w.add_bytes b = .ok (res, rest) → Built res

/-- The serialized stream in cons normal form: the 44 header bytes followed by
the sample bytes, all by unfolding the definitions. -/
theorem WaveFile.wave_bytes_eq (w : WaveFile) :
    w.wave_bytes =
      82 :: 73 :: 70 :: 70 ::
      (w.chunk_size % 256) :: (w.chunk_size / 256 % 256) ::
      (w.chunk_size / 65536 % 256) :: (w.chunk_size / 16777216 % 256) ::
      87 :: 65 :: 86 :: 69 ::
      102 :: 109 :: 116 :: 32 ::
      16 :: 0 :: 0 :: 0 ::
      (w.audio_format % 256) :: (w.audio_format / 256 % 256) ::
      (w.num_channels % 256) :: (w.num_channels / 256 % 256) ::
      (w.sample_rate % 256) :: (w.sample_rate / 256 % 256) ::
      (w.sample_rate / 65536 % 256) :: (w.sample_rate / 16777216 % 256) ::
      (w.byte_rate % 256) :: (w.byte_rate / 256 % 256) ::
      (w.byte_rate / 65536 % 256) :: (w.byte_rate / 16777216 % 256) ::
      (w.block_align % 256) :: (w.block_align / 256 % 256) ::
      (w.bits_per_sample % 256) :: (w.bits_per_sample / 256 % 256) ::
      100 :: 97 :: 116 :: 97 ::
      (w.subchunk2_size % 256) :: (w.subchunk2_size / 256 % 256) ::
      (w.subchunk2_size / 65536 % 256) :: (w.subchunk2_size / 16777216 % 256) ::
      w.audio_byte_data := rfl

/-- The stream is always exactly 44 header bytes plus the sample bytes. -/
theorem WaveFile.wave_bytes_length (w : WaveFile) :
    w.wave_bytes.length = 44 + w.audio_byte_data.length := by
  rw [WaveFile.wave_bytes_eq]
  simp
  omega

/-- Dropping the 44-byte header of the stream leaves the sample bytes. -/
theorem WaveFile.wave_bytes_drop_44 (w : WaveFile) :
    w.wave_bytes.drop 44 = w.audio_byte_data := rfl

/-- Bytes 0-3 of the stream are ASCII "RIFF". -/
theorem WaveFile.wb_riff (w : WaveFile) : w.wave_bytes.take 4 = [82, 73, 70, 70] := rfl

/-- Bytes 4-7 of the stream are the little-endian ChunkSize field. -/
theorem WaveFile.wb_chunk (w : WaveFile) :
    (w.wave_bytes.drop 4).take 4 = le32 w.chunk_size := rfl

/-- Bytes 8-11 of the stream are ASCII "WAVE". -/
theorem WaveFile.wb_wave (w : WaveFile) :
    (w.wave_bytes.drop 8).take 4 = [87, 65, 86, 69] := rfl

/-- Bytes 12-15 of the stream are ASCII "fmt ". -/
theorem WaveFile.wb_fmt (w : WaveFile) :
    (w.wave_bytes.drop 12).take 4 = [102, 109, 116, 32] := rfl

/-- Bytes 16-19 of the stream are the little-endian Subchunk1Size field, 16. -/
theorem WaveFile.wb_sub1 (w : WaveFile) :
    (w.wave_bytes.drop 16).take 4 = le32 16 := rfl

/-- Bytes 20-21 of the stream are the 2-byte AudioFormat field. -/
theorem WaveFile.wb_af (w : WaveFile) :
    (w.wave_bytes.drop 20).take 2 = lo16 w.audio_format := rfl

/-- Bytes 22-23 of the stream are the 2-byte NumChannels field. -/
theorem WaveFile.wb_nc (w : WaveFile) :
    (w.wave_bytes.drop 22).take 2 = lo16 w.num_channels := rfl

/-- Bytes 24-27 of the stream are the little-endian SampleRate field. -/
theorem WaveFile.wb_sr (w : WaveFile) :
    (w.wave_bytes.drop 24).take 4 = le32 w.sample_rate := rfl

/-- Bytes 28-31 of the stream are the little-endian ByteRate field. -/
theorem WaveFile.wb_br (w : WaveFile) :
    (w.wave_bytes.drop 28).take 4 = le32 w.byte_rate := rfl

/-- Bytes 32-33 of the stream are the 2-byte BlockAlign field. -/
theorem WaveFile.wb_ba (w : WaveFile) :
    (w.wave_bytes.drop 32).take 2 = lo16 w.block_align := rfl

/-- Bytes 34-35 of the stream are the 2-byte BitsPerSample field. -/
theorem WaveFile.wb_bps (w : WaveFile) :
    (w.wave_bytes.drop 34).take 2 = lo16 w.bits_per_sample := rfl

/-- Bytes 36-39 of the stream are ASCII "data". -/
theorem WaveFile.wb_dataid (w : WaveFile) :
    (w.wave_bytes.drop 36).take 4 = [100, 97, 116, 97] := rfl

/-- Bytes 40-43 of the stream are the little-endian Subchunk2Size field. -/
theorem WaveFile.wb_sub2 (w : WaveFile) :
    (w.wave_bytes.drop 40).take 4 = le32 w.subchunk2_size := rfl

/-- Decoding a 4-byte little-endian field recovers the value mod 2^32. -/
theorem leVal4_le32 (v : Nat) : leVal4 (le32 v) = v % U32 := by
  simp [leVal4, le32, U32]
  omega

/-- The 2-byte fields hold the low 16 bits: the first two bytes of the 4-byte
little-endian encoding encode the value mod 2^16. -/
theorem lo16_eq_le16 (v : Nat) : lo16 v = le16 (v % 65536) := by
  simp [lo16, le32, le16, List.take]
  omega

/-- C8: for every input byte sequence shorter than 44 bytes, extracting the PCM
data fails with an OutOfBounds error returned to the caller. -/
theorem C8_short_input_out_of_bounds (c : List Nat) (h : c.length < 44) :
    file_to_data c = .error .outOfBounds := by
  rw [file_to_data, if_pos h]

theorem C8_short_input_out_of_bounds_witness :
    (List.replicate 10 (0 : Nat)).length < 44 ∧
      file_to_data (List.replicate 10 (0 : Nat)) = .error .outOfBounds :=
  ⟨by decide, C8_short_input_out_of_bounds (List.replicate 10 (0 : Nat)) (by decide)⟩

/-- C10: for every input byte sequence of length exactly 44, extracting the PCM
data succeeds and returns the empty byte sequence. -/
theorem C10_boundary_accepted (c : List Nat) (h : c.length = 44) :
    file_to_data c = .ok [] := by
  rw [file_to_data, if_neg (by omega)]
  rw [List.drop_eq_nil_of_le (by omega)]

theorem C10_boundary_accepted_witness :
    (List.replicate 44 (0 : Nat)).length = 44 ∧
      file_to_data (List.replicate 44 (0 : Nat)) = .ok [] :=
  ⟨by decide, C10_boundary_accepted (List.replicate 44 (0 : Nat)) (by decide)⟩

/-- C1: for every container built through the API with `bits_per_sample = 16`
and any sequence of successful appends, extracting the PCM data from the
serialized byte stream (dropping the fixed 44-byte header) returns exactly the
container's accumulated sample bytes. -/
theorem C1_serialize_extract_roundtrip (w : WaveFile) (out : List Nat)
    (_hbuilt : Built w) (_h16 : w.bits_per_sample = 16)
    (hok : w.to_bytes = .ok out) :
    file_to_data out = .ok w.audio_byte_data := by
  rw [WaveFile.to_bytes] at hok
  split at hok
  · exact absurd hok (by simp)
  · cases hok
    rw [file_to_data, if_neg (by rw [WaveFile.wave_bytes_length]; omega)]
    rw [WaveFile.wave_bytes_drop_44]

/-- The concrete round-trip container: `new(PCM, 2, 44100, 16)` after a
successful 4-byte append. -/
def c1w : WaveFile :=
  { WaveFile.new .PCM 2 44100 16 with audio_byte_data := [1, 0, 2, 0] }

theorem C1_serialize_extract_roundtrip_witness :
    Built c1w ∧ c1w.bits_per_sample = 16 ∧
      c1w.to_bytes = .ok c1w.wave_bytes ∧
      file_to_data c1w.wave_bytes = .ok [1, 0, 2, 0] :=
  have hb : Built c1w :=
    Built.step (WaveFile.new .PCM 2 44100 16) [1, 0, 2, 0] c1w []
      (Built.base .PCM 2 44100 16) (by decide)
  ⟨hb, rfl, by decide,
    C1_serialize_extract_roundtrip c1w c1w.wave_bytes hb rfl (by decide)⟩

/-- C9: whenever serialization succeeds, each 2-byte header field (AudioFormat
at 20, NumChannels at 22, BlockAlign at 32, BitsPerSample at 34) holds exactly
the two low-order bytes of the corresponding internal value in little-endian
order, i.e. the value mod 65536, with no overflow check. -/
theorem C9_two_byte_fields_truncate (w : WaveFile) (out : List Nat)
    (hok : w.to_bytes = .ok out) :
    (out.drop 20).take 2 = le16 (w.audio_format % 65536) ∧
      (out.drop 22).take 2 = le16 (w.num_channels % 65536) ∧
      (out.drop 32).take 2 = le16 (w.block_align % 65536) ∧
      (out.drop 34).take 2 = le16 (w.bits_per_sample % 65536) := by
  rw [WaveFile.to_bytes] at hok
  split at hok
  · exact absurd hok (by simp)
  · cases hok
    exact ⟨by rw [w.wb_af, lo16_eq_le16], by rw [w.wb_nc, lo16_eq_le16],
      by rw [w.wb_ba, lo16_eq_le16], by rw [w.wb_bps, lo16_eq_le16]⟩

/-- Container with `num_channels = 70000 > 65535`, exercising the silent wrap. -/
def c9w : WaveFile := WaveFile.new .PCM 70000 8000 16

theorem C9_two_byte_fields_truncate_witness :
    c9w.to_bytes = .ok c9w.wave_bytes ∧ 65535 < c9w.num_channels ∧
      (c9w.wave_bytes.drop 22).take 2 = le16 (c9w.num_channels % 65536) ∧
      (c9w.wave_bytes.drop 22).take 2 = [112, 17] :=
  ⟨by decide, by decide,
    (C9_two_byte_fields_truncate c9w c9w.wave_bytes (by decide)).2.1, by decide⟩

/-- C2 counterexample: a constructed container (positive channel count 2^31)
on which `to_bytes` panics with a division by zero instead of producing any
output, so "regardless of parameters" fails. -/
theorem C2_counterexample_div_by_zero :
    (WaveFile.new .PCM (2 ^ 31) 44100 16).to_bytes = .error .divByZero := by
  decide

/-- C2 (amended): for every container whose wrapped divisor `2 * num_channels`
is nonzero (equivalently `num_channels` is neither 0 nor 2^31), serialization
succeeds; the output has length 44 + len(sample_data); bytes 0-3 = "RIFF",
8-11 = "WAVE", 12-15 = "fmt ", 36-39 = "data"; the numeric fields at offsets
4, 16, 24, 28, 40 are the 4-byte little-endian encodings of their values with
Subchunk1Size = 16; and the sample bytes are copied verbatim from offset 44. -/
theorem C2_layout (w : WaveFile) (h : 2 * w.num_channels % U32 ≠ 0) :
    w.to_bytes = .ok w.wave_bytes ∧
      w.wave_bytes.length = 44 + w.audio_byte_data.length ∧
      w.wave_bytes.take 4 = [82, 73, 70, 70] ∧
      (w.wave_bytes.drop 8).take 4 = [87, 65, 86, 69] ∧
      (w.wave_bytes.drop 12).take 4 = [102, 109, 116, 32] ∧
      (w.wave_bytes.drop 36).take 4 = [100, 97, 116, 97] ∧
      (w.wave_bytes.drop 4).take 4 = le32 w.chunk_size ∧
      (w.wave_bytes.drop 16).take 4 = le32 16 ∧
      leVal4 ((w.wave_bytes.drop 16).take 4) = 16 ∧
      (w.wave_bytes.drop 24).take 4 = le32 w.sample_rate ∧
      (w.wave_bytes.drop 28).take 4 = le32 w.byte_rate ∧
      (w.wave_bytes.drop 40).take 4 = le32 w.subchunk2_size ∧
      w.wave_bytes.drop 44 = w.audio_byte_data :=
  ⟨by rw [WaveFile.to_bytes, if_neg h], w.wave_bytes_length,
    w.wb_riff, w.wb_wave, w.wb_fmt, w.wb_dataid, w.wb_chunk, w.wb_sub1,
    by rw [w.wb_sub1]; decide, w.wb_sr, w.wb_br, w.wb_sub2, w.wave_bytes_drop_44⟩

/-- The concrete container for the C2 witness. -/
def c2w : WaveFile :=
  { WaveFile.new .PCM 2 44100 16 with audio_byte_data := [1, 0, 2, 0] }

theorem C2_layout_witness :
    2 * c2w.num_channels % U32 ≠ 0 ∧
      c2w.to_bytes = .ok c2w.wave_bytes ∧
      c2w.wave_bytes.length = 44 + c2w.audio_byte_data.length ∧
      c2w.wave_bytes.take 4 = [82, 73, 70, 70] ∧
      (c2w.wave_bytes.drop 8).take 4 = [87, 65, 86, 69] ∧
      (c2w.wave_bytes.drop 12).take 4 = [102, 109, 116, 32] ∧
      (c2w.wave_bytes.drop 36).take 4 = [100, 97, 116, 97] ∧
      (c2w.wave_bytes.drop 4).take 4 = le32 c2w.chunk_size ∧
      (c2w.wave_bytes.drop 16).take 4 = le32 16 ∧
      leVal4 ((c2w.wave_bytes.drop 16).take 4) = 16 ∧
      (c2w.wave_bytes.drop 24).take 4 = le32 c2w.sample_rate ∧
      (c2w.wave_bytes.drop 28).take 4 = le32 c2w.byte_rate ∧
      (c2w.wave_bytes.drop 40).take 4 = le32 c2w.subchunk2_size ∧
      c2w.wave_bytes.drop 44 = c2w.audio_byte_data :=
  ⟨by decide, C2_layout c2w (by decide)⟩

/-- C5 counterexample: at `num_channels = 2^31`, `bits_per_sample = 16` (a
positive multiple of 8), the stored `block_align` is the wrapped `u32` product
`0`, not the exact product `2^31 * (16 / 8) = 2^32`. -/
theorem C5_counterexample_wrap :
    (WaveFile.new .PCM (2 ^ 31) 1 16).block_align ≠ 2 ^ 31 * (16 / 8) := by
  decide

/-- C5 (amended): for every `build` call with `bits_per_sample` a positive
multiple of 8 whose derived products fit in 32 bits (no `u32` wrap), the
returned container has empty `sample_data`,
`block_align = num_channels * (bits_per_sample / 8)` and
`byte_rate = sample_rate * num_channels * (bits_per_sample / 8)`, exactly. -/
theorem C5_build_exact (af : AudioFormat) (nc sr bps : Nat)
    (hpos : 0 < bps) (hdvd : 8 ∣ bps)
    (hba : nc * (bps / 8) < U32) (hbr : sr * nc * (bps / 8) < U32) :
    (WaveFile.new af nc sr bps).audio_byte_data = [] ∧
      (WaveFile.new af nc sr bps).block_align = nc * (bps / 8) ∧
      (WaveFile.new af nc sr bps).byte_rate = sr * nc * (bps / 8) := by
  have hp8 : 1 ≤ bps / 8 := Nat.one_le_div_iff (by norm_num) |>.2 (Nat.le_of_dvd hpos hdvd)
  have hsn : sr * nc < U32 := by
    calc sr * nc = sr * nc * 1 := by ring
    _ ≤ sr * nc * (bps / 8) := Nat.mul_le_mul_left _ hp8
    _ < U32 := hbr
  refine ⟨rfl, ?_, ?_⟩
  · show nc * (bps / 8) % U32 = nc * (bps / 8)
    exact Nat.mod_eq_of_lt hba
  · show sr * nc % U32 * (bps / 8) % U32 = sr * nc * (bps / 8)
    rw [Nat.mod_eq_of_lt hsn, Nat.mod_eq_of_lt hbr]

theorem C5_build_exact_witness :
    0 < 16 ∧ (8 : Nat) ∣ 16 ∧ 2 * (16 / 8) < U32 ∧ 44100 * 2 * (16 / 8) < U32 ∧
      (WaveFile.new .PCM 2 44100 16).audio_byte_data = [] ∧
      (WaveFile.new .PCM 2 44100 16).block_align = 2 * (16 / 8) ∧
      (WaveFile.new .PCM 2 44100 16).byte_rate = 44100 * 2 * (16 / 8) :=
  ⟨by decide, by decide, by decide, by decide,
    C5_build_exact .PCM 2 44100 16 (by decide) (by decide) (by decide) (by decide)⟩

/-- C3 failing input: the container `new(PCM, 3, 1, 8)` has `block_align = 3`;
a buffer of `2^32` bytes has `2^32 mod 3 = 1 ≠ 0`, yet because the source
computes `bytes.len() as u32` (truncating `2^32` to `0`), the append is
accepted and the misaligned bytes land in the buffer instead of the promised
AlignmentError with an unchanged container. -/
theorem C3_misaligned_append_accepted :
    (List.replicate (2 ^ 32) (0 : Nat)).length %
        (WaveFile.new .PCM 3 1 8).block_align ≠ 0 ∧
      (WaveFile.new .PCM 3 1 8).add_bytes (List.replicate (2 ^ 32) 0) =
        .ok ({ WaveFile.new .PCM 3 1 8 with
                audio_byte_data := List.replicate (2 ^ 32) 0 }, []) := by
  have hba : (WaveFile.new .PCM 3 1 8).block_align = 3 := by
    norm_num [WaveFile.new, AudioFormat.get_val, U32]
  constructor
  · rw [List.length_replicate, hba]
    norm_num
  · have h1 : ¬((WaveFile.new .PCM 3 1 8).block_align = 0) := by rw [hba]; norm_num
    have h2 : ¬(2 ^ 32 % U32 % (WaveFile.new .PCM 3 1 8).block_align ≠ 0) := by
      rw [hba]; norm_num [U32]
    rw [WaveFile.add_bytes, List.length_replicate, if_neg h1, if_neg h2]
    rfl

/-- C4 failing input: the container `new(PCM, 3, 1, 8)` has `block_align = 3`;
a buffer of `2^32 + 2` bytes is aligned (`(2^32 + 2) mod 3 = 0`), yet the
truncated `u32` length is `2`, `2 mod 3 ≠ 0`, so the source panics with the
alignment error instead of appending. -/
theorem C4_aligned_append_rejected :
    (List.replicate (2 ^ 32 + 2) (0 : Nat)).length %
        (WaveFile.new .PCM 3 1 8).block_align = 0 ∧
      (WaveFile.new .PCM 3 1 8).add_bytes (List.replicate (2 ^ 32 + 2) 0) =
        .error .alignment := by
  have hba : (WaveFile.new .PCM 3 1 8).block_align = 3 := by
    norm_num [WaveFile.new, AudioFormat.get_val, U32]
  constructor
  · rw [List.length_replicate, hba]
    norm_num
  · have h1 : ¬((WaveFile.new .PCM 3 1 8).block_align = 0) := by rw [hba]; norm_num
    have h2 : (2 ^ 32 + 2) % U32 % (WaveFile.new .PCM 3 1 8).block_align ≠ 0 := by
      rw [hba]; norm_num [U32]
    rw [WaveFile.add_bytes, List.length_replicate, if_neg h1, if_pos h2]

/-- The container left behind by the invariant-breaking append of C6. -/
def c6bad : WaveFile :=
  { WaveFile.new .PCM 3 1 8 with audio_byte_data := List.replicate (2 ^ 32) 0 }

/-- C6 failing input: starting from `new(PCM, 3, 1, 8)` (where the alignment
invariant holds, `0 mod 3 = 0`), the `2^32`-byte append succeeds via the
truncated length check, after which `len(sample_data) mod block_align = 1`,
so the invariant is not preserved by a successful operation. -/
theorem C6_alignment_invariant_broken :
    (WaveFile.new .PCM 3 1 8).audio_byte_data.length %
        (WaveFile.new .PCM 3 1 8).block_align = 0 ∧
      (WaveFile.new .PCM 3 1 8).add_bytes (List.replicate (2 ^ 32) 0) =
        .ok (c6bad, []) ∧
      c6bad.audio_byte_data.length % c6bad.block_align = 1 := by
  have hba : (WaveFile.new .PCM 3 1 8).block_align = 3 := by
    norm_num [WaveFile.new, AudioFormat.get_val, U32]
  refine ⟨by decide, ?_, ?_⟩
  · have h1 : ¬((WaveFile.new .PCM 3 1 8).block_align = 0) := by rw [hba]; norm_num
    have h2 : ¬(2 ^ 32 % U32 % (WaveFile.new .PCM 3 1 8).block_align ≠ 0) := by
      rw [hba]; norm_num [U32]
    rw [WaveFile.add_bytes, List.length_replicate, if_neg h1, if_neg h2]
    rfl
  · have hd : c6bad.audio_byte_data = List.replicate (2 ^ 32) 0 := rfl
    have hb6 : c6bad.block_align = 3 := hba
    rw [hd, List.length_replicate, hb6]
    norm_num

/-- A reachable container on which the claimed Subchunk2Size formula fails:
`new(PCM, 1, 1, 4294967288)` has `block_align = 536870911`, and an aligned
append of `4294967288` zero bytes succeeds, after which the exact formula value
overflows 32 bits and the emitted field holds only its wrapped value. -/
def c7bad : WaveFile :=
  { WaveFile.new .PCM 1 1 4294967288 with
      audio_byte_data := List.replicate 4294967288 0 }

/-- C7 counterexample: a container with `num_channels = 1 > 0`, reached by a
successful append, whose serialized Subchunk2Size field decodes to `4`, while
`(len / (2 * num_channels)) * num_channels * (bits_per_sample / 8)` is
`1152921500311879684`: the field does not equal the claimed formula. -/
theorem C7_counterexample_overflow :
    0 < c7bad.num_channels ∧
      (WaveFile.new .PCM 1 1 4294967288).add_bytes (List.replicate 4294967288 0) =
        .ok (c7bad, []) ∧
      c7bad.to_bytes = .ok c7bad.wave_bytes ∧
      leVal4 ((c7bad.wave_bytes.drop 40).take 4) = 4 ∧
      c7bad.audio_byte_data.length / (2 * c7bad.num_channels) * c7bad.num_channels *
          (c7bad.bits_per_sample / 8) = 1152921500311879684 ∧
      (4 : Nat) ≠ 1152921500311879684 := by
  have hnc : c7bad.num_channels = 1 := rfl
  have hbps : c7bad.bits_per_sample = 4294967288 := rfl
  have hdat : c7bad.audio_byte_data = List.replicate 4294967288 0 := rfl
  have hlen : c7bad.audio_byte_data.length = 4294967288 := by
    rw [hdat, List.length_replicate]
  have hba : (WaveFile.new .PCM 1 1 4294967288).block_align = 536870911 := by
    norm_num [WaveFile.new, AudioFormat.get_val, U32]
  have hsub : c7bad.subchunk2_size = 4 := by
    rw [WaveFile.subchunk2_size, hlen, hnc, hbps]
    norm_num [U32]
  refine ⟨by rw [hnc]; norm_num, ?_, ?_, ?_, ?_, by norm_num⟩
  · have h1 : ¬((WaveFile.new .PCM 1 1 4294967288).block_align = 0) := by
      rw [hba]; norm_num
    have h2 : ¬(4294967288 % U32 % (WaveFile.new .PCM 1 1 4294967288).block_align ≠ 0) := by
      rw [hba]; norm_num [U32]
    rw [WaveFile.add_bytes, List.length_replicate, if_neg h1, if_neg h2]
    rfl
  · have hne : ¬(2 * c7bad.num_channels % U32 = 0) := by rw [hnc]; norm_num [U32]
    rw [WaveFile.to_bytes, if_neg hne]
  · rw [c7bad.wb_sub2, leVal4_le32, hsub]
    norm_num [U32]
  · rw [hlen, hnc, hbps]

/-- C7 (amended): for every container with `0 < num_channels < 2^31`, sample
data shorter than 2^32 bytes, and a ChunkSize value `4 + (8+16) + (8 + S)` that
fits in 32 bits (where `S = (len / (2 * num_channels)) * num_channels *
(bits_per_sample / 8)` with integer division, regardless of the actual
`bits_per_sample`), the 4-byte little-endian Subchunk2Size field at offset 40
decodes to exactly `S`, and the ChunkSize field at offset 4 decodes to exactly
`4 + (8 + 16) + (8 + S)`. -/
theorem C7_size_fields (w : WaveFile)
    (h0 : 0 < w.num_channels) (h1 : w.num_channels < 2 ^ 31)
    (h2 : w.audio_byte_data.length < U32)
    (h3 : 4 + (8 + 16) +
        (8 + w.audio_byte_data.length / (2 * w.num_channels) * w.num_channels *
          (w.bits_per_sample / 8)) < U32) :
    w.to_bytes = .ok w.wave_bytes ∧
      leVal4 ((w.wave_bytes.drop 40).take 4) =
        w.audio_byte_data.length / (2 * w.num_channels) * w.num_channels *
          (w.bits_per_sample / 8) ∧
      leVal4 ((w.wave_bytes.drop 4).take 4) =
        4 + (8 + 16) +
          (8 + w.audio_byte_data.length / (2 * w.num_channels) * w.num_channels *
            (w.bits_per_sample / 8)) := by
  set n := w.audio_byte_data.length with hn
  set c := w.num_channels with hc
  set p := w.bits_per_sample / 8 with hp
  have hU : U32 = 2 ^ 32 := rfl
  have hdiv : 2 * c % U32 = 2 * c := Nat.mod_eq_of_lt (by rw [hU]; omega)
  have hne : ¬(2 * c % U32 = 0) := by rw [hdiv]; omega
  have hq : n / (2 * c) * c ≤ n / 2 := by
    rw [Nat.le_div_iff_mul_le (by norm_num)]
    calc n / (2 * c) * c * 2 = n / (2 * c) * (2 * c) := by ring
    _ ≤ n := Nat.div_mul_le_self n (2 * c)
  have hqU : n / (2 * c) * c < U32 :=
    lt_of_le_of_lt (le_trans hq (Nat.div_le_self n 2)) h2
  have hS : n / (2 * c) * c * p < U32 := by omega
  have hsub : w.subchunk2_size = n / (2 * c) * c * p := by
    show n % U32 / (2 * c % U32) * c % U32 * p % U32 = _
    rw [Nat.mod_eq_of_lt h2, hdiv, Nat.mod_eq_of_lt hqU, Nat.mod_eq_of_lt hS]
  have hck : w.chunk_size = 4 + (8 + 16) + (8 + n / (2 * c) * c * p) := by
    show (4 + (8 + 16) + (8 + w.subchunk2_size)) % U32 = _
    rw [hsub, Nat.mod_eq_of_lt h3]
  refine ⟨by rw [WaveFile.to_bytes, if_neg hne], ?_, ?_⟩
  · rw [w.wb_sub2, leVal4_le32, hsub, Nat.mod_eq_of_lt hS]
  · rw [w.wb_chunk, leVal4_le32, hck, Nat.mod_eq_of_lt h3]

/-- The concrete container for the C7 witness: two channels, 16-bit, two
frames (8 sample bytes), so `S = 8 / 4 * 2 * 2 = 8` and ChunkSize `= 44`. -/
def c7w : WaveFile :=
  { WaveFile.new .PCM 2 44100 16 with
      audio_byte_data := [1, 0, 2, 0, 3, 0, 4, 0] }

theorem C7_size_fields_witness :
    0 < c7w.num_channels ∧ c7w.num_channels < 2 ^ 31 ∧
      c7w.audio_byte_data.length < U32 ∧
      4 + (8 + 16) +
          (8 + c7w.audio_byte_data.length / (2 * c7w.num_channels) * c7w.num_channels *
            (c7w.bits_per_sample / 8)) < U32 ∧
      c7w.to_bytes = .ok c7w.wave_bytes ∧
      leVal4 ((c7w.wave_bytes.drop 40).take 4) =
        c7w.audio_byte_data.length / (2 * c7w.num_channels) * c7w.num_channels *
          (c7w.bits_per_sample / 8) ∧
      leVal4 ((c7w.wave_bytes.drop 4).take 4) =
        4 + (8 + 16) +
          (8 + c7w.audio_byte_data.length / (2 * c7w.num_channels) * c7w.num_channels *
            (c7w.bits_per_sample / 8)) :=
  ⟨by decide, by decide, by decide, by decide,
    C7_size_fields c7w (by decide) (by decide) (by decide) (by decide)⟩

end JAudio
